import Mathlib

/-
Verification of `wiki_crawler.py`, a Wikipedia category crawler.

The crawler's HTML handling is embedded shallowly: a parsed HTML document
is a `Dom` tree in first-child / next-sibling form, and the BeautifulSoup
operations the source uses (`find`, `find_all`, `decompose`, `get_text`)
become structurally recursive functions on `Dom`.  Network I/O is an
oracle `Net` mapping a request to either a transport failure or a
response; HTML parsing of a fetched string is an oracle
`String → Dom`.  File writes are reified as a list of
`(path, content)` pairs produced by the orchestrator, together with the
error (if any) that aborted the run.
-/

namespace WikiCrawler

/-- Parsed HTML in first-child / next-sibling form.  A `Dom` value is a
forest: `nil` is the empty forest, `text s sib` a text node followed by
its right siblings, and `elem tag attrs child sib` an element with its
tag, attribute list, first child (heading the forest of children) and
right siblings.  A whole document is the forest of its top-level nodes. -/
inductive Dom where
  | nil : Dom
  | text (s : String) (sib : Dom) : Dom
  | elem (tag : String) (attrs : List (String × String)) (child : Dom) (sib : Dom) : Dom

deriving instance DecidableEq for Dom

/-- An element found in a tree: its tag, attributes and children forest.
This is what BeautifulSoup's `find` / `find_all` hand back (a `Tag`). -/
structure Elem where
  tag : String
  attrs : List (String × String)
  child : Dom

deriving instance DecidableEq for Elem

/-- An element predicate, applied to a tag name and attribute list. -/
abbrev ElemPred := String → List (String × String) → Bool

/-- Attribute lookup: first binding of the key in the attribute list,
mirroring `tag['name']` access on a parsed element. -/
def getAttr (attrs : List (String × String)) (k : String) : Option String :=
  (attrs.find? (fun p => p.1 = k)).map (fun p => p.2)

/-- First element matching `p` in document (pre-)order in the forest,
as BeautifulSoup's `find` returns it. -/
def findFirst (p : ElemPred) : Dom → Option Elem
  | .nil => none
  | .text _ sib => findFirst p sib
  | .elem t a c sib =>
    if p t a then some ⟨t, a, c⟩
    else
      match findFirst p c with
      | some e => some e
      | none => findFirst p sib

/-- All elements matching `p` in document (pre-)order, nested matches
included, as BeautifulSoup's `find_all` returns them. -/
def findAll (p : ElemPred) : Dom → List Elem
  | .nil => []
  | .text _ sib => findAll p sib
  | .elem t a c sib =>
    (if p t a then [(⟨t, a, c⟩ : Elem)] else []) ++ findAll p c ++ findAll p sib

/-- Concatenation of all text nodes of a forest in document order;
`tag.get_text()` is `getText` of the element's child forest. -/
def getText : Dom → String
  | .nil => ""
  | .text s sib => s ++ getText sib
  | .elem _ _ c sib => getText c ++ getText sib

/-- Destructive removal (`decompose`) of every element matching `bad`:
a matching element disappears together with its whole subtree; the
remaining elements keep their relative order. -/
def strip (bad : ElemPred) : Dom → Dom
  | .nil => .nil
  | .text s sib => .text s (strip bad sib)
  | .elem t a c sib =>
    if bad t a then strip bad sib else .elem t a (strip bad c) (strip bad sib)

/-- Error taxonomy of the crawler, naming each Python exception the
source can raise: `structureError` is the `AttributeError` raised when
`soup.find("div", {"id": "mw-pages"})` returns `None` and `find_all` is
called on it; `anchorError` the `TypeError`/`KeyError` when a list item
has no anchor or the anchor has no `href`; `fetchError` the wrapped
exception raised by `extract_text_from_wikipedia` on a transport failure
or non-2xx status; `titleError` the `AttributeError` when the stripped
article has no `title` element; `noHtmlError` the `TypeError` from
parsing `None`; `transportError` an uncaught `requests` exception from a
bare `rq.get`. -/
inductive CrawlError where
  | structureError : CrawlError
  | anchorError : CrawlError
  | fetchError (msg : String) : CrawlError
  | titleError : CrawlError
  | noHtmlError : CrawlError
  | transportError (msg : String) : CrawlError

deriving instance DecidableEq for CrawlError

deriving instance DecidableEq for Except

/-- Message of each error, the `str(e)` that `main` interpolates into
its `Error: {e}` line. -/
def errMsg : CrawlError → String
  | .structureError => "'NoneType' object has no attribute 'find_all'"
  | .anchorError => "'NoneType' object is not subscriptable"
  | .fetchError msg => msg
  | .titleError => "'NoneType' object has no attribute 'get_text'"
  | .noHtmlError => "object of type 'NoneType' has no len()"
  | .transportError msg => msg

/-- Hex digit value, as `urllib`'s percent-decoder reads escape digits. -/
def hexVal (c : Char) : Option Nat :=
  if '0' ≤ c ∧ c ≤ '9' then some (c.toNat - '0'.toNat)
  else if 'a' ≤ c ∧ c ≤ 'f' then some (c.toNat - 'a'.toNat + 10)
  else if 'A' ≤ c ∧ c ≤ 'F' then some (c.toNat - 'A'.toNat + 10)
  else none

/-- Percent-decoding scan: a `%` followed by two hex digits becomes the
decoded character, anything else is kept literally. -/
def unquoteChars : List Char → List Char
  | [] => []
  | '%' :: a :: b :: rest =>
    match hexVal a, hexVal b with
    | some x, some y => Char.ofNat (16 * x + y) :: unquoteChars rest
    | _, _ => '%' :: unquoteChars (a :: b :: rest)
  | c :: rest => c :: unquoteChars rest

/-- Modelled from the spec: `rq.utils.unquote`, the library
percent-decoder used on each article link (the `unquote` of `urllib`,
which is not part of this repository).  Restricted to single-byte
escapes: each valid `%XX` escape becomes the character with code `XX`,
and malformed escapes are kept literally, as the library does. -/
def unquote (s : String) : String := ⟨unquoteChars s.data⟩

/-- Predicate of the category listing container,
`soup.find("div", {"id": "mw-pages"})`. -/
def isMwPagesDiv : ElemPred :=
  fun t a => t = "div" ∧ getAttr a "id" = some "mw-pages"

/-- Predicate of a list item, `find_all("li")`. -/
def isLi : ElemPred := fun t _ => t = "li"

/-- Predicate of an anchor, `find("a")`. -/
def isA : ElemPred := fun t _ => t = "a"

/-- The dedup-and-collect loop of `get_pages` (lines 20-26): walk the
list items, read each one's first anchor's `href`, and append the
percent-decoded link to `pages` unless the raw link is already a key of
`pages_used`.  A missing anchor or missing `href` raises. -/
def pagesLoop : List Elem → List String → List String → Except CrawlError (List String)
  | [], _, pages => .ok pages
  | li :: rest, used, pages =>
    match findFirst isA li.child with
    | none => .error .anchorError
    | some a =>
      match getAttr a.attrs "href" with
      | none => .error .anchorError
      | some wiki =>
        if wiki ∈ used then pagesLoop rest used pages
        else pagesLoop rest (used ++ [wiki]) (pages ++ [unquote wiki])

/-- `get_pages(soup)`: locate the `mw-pages` container (failing when it
is absent), enumerate its list items, and run the dedup-and-collect
loop over them. -/
def get_pages (doc : Dom) : Except CrawlError (List String) :=
  match findFirst isMwPagesDiv doc with
  | none => .error .structureError
  | some container => pagesLoop (findAll isLi container.child) [] []

/-- Whitespace characters stripped by Python's `str.strip()` (for the
ASCII range the crawler meets). -/
def pyIsSpace (c : Char) : Bool :=
  c = ' ' || c = '\t' || c = '\n' || c = '\r' || c = '\x0b' || c = '\x0c'

/-- Python's `str.strip()`: drop leading and trailing whitespace. -/
def pyStrip (s : String) : String :=
  ⟨((s.data.dropWhile pyIsSpace).reverse.dropWhile pyIsSpace).reverse⟩

/-- Tags removed by the first decompose loop (line 54):
`soup(['nav', 'script', 'style', 'footer'])`. -/
def isNavLike : ElemPred :=
  fun t _ => t = "nav" || t = "script" || t = "style" || t = "footer"

/-- Splitting a character list at whitespace, keeping the pieces (the
way the HTML tree builder splits a multi-valued `class` attribute). -/
def splitWsAux : List Char → List Char → List String
  | [], acc => [⟨acc.reverse⟩]
  | c :: cs, acc =>
    if c.isWhitespace then (⟨acc.reverse⟩ : String) :: splitWsAux cs []
    else splitWsAux cs (c :: acc)

/-- Split a string on whitespace characters. -/
def splitWs (s : String) : List String := splitWsAux s.data []

/-- Class-attribute match, as BeautifulSoup's `class_=` filter reads the
multi-valued `class` attribute: the attribute value, split on
whitespace, contains the requested name. -/
def clsMatch (cn : String) : ElemPred :=
  fun _ a =>
    match getAttr a "class" with
    | none => false
    | some v => (splitWs v).contains cn

/-- The strip-list of the second decompose loop (line 58):
`for class_name in ['navbox']`. -/
def stripClasses : List String := ["navbox"]

/-- Both decompose passes of `extract_text_from_wikipedia` (lines
53-60): first remove `nav`/`script`/`style`/`footer` elements, then
every element classed with an entry of the strip-list. -/
def stripAll (doc : Dom) : Dom :=
  stripClasses.foldl (fun s cn => strip (clsMatch cn) s) (strip isNavLike doc)

/-- Predicate of a paragraph, `find_all('p')`. -/
def isP : ElemPred := fun t _ => t = "p"

/-- Predicate of the title element, `soup.find('title')`. -/
def isTitle : ElemPred := fun t _ => t = "title"

/-- The paragraph-accumulation loop of lines 63-65:
`text += paragraph.get_text() + '\n\n'` over `soup.find_all('p')`. -/
def paragraphFold (ps : List Elem) : String :=
  ps.foldl (fun acc p => acc ++ getText p.child ++ "\n\n") ""

/-- Lines 51-68 of `extract_text_from_wikipedia`, once the HTML string
has been parsed: decompose the noise elements, accumulate the paragraph
texts, and return the title text paired with the stripped body; a
document with no `title` element raises. -/
def extractFromDoc (doc : Dom) : Except CrawlError (String × String) :=
  let soup := stripAll doc
  let text := paragraphFold (findAll isP soup)
  match findFirst isTitle soup with
  | none => .error .titleError
  | some t => .ok (getText t.child, pyStrip text)

/-- An HTTP request: the URL and the extra headers passed to `rq.get`. -/
structure Request where
  url : String
  headers : List (String × String)

deriving instance DecidableEq for Request

/-- An HTTP response: status code and raw body (text or PDF bytes). -/
structure Response where
  status : Nat
  body : String

deriving instance DecidableEq for Response

/-- The network oracle: each `rq.get` either raises a transport
exception (carrying its message) or yields a response. -/
abbrev Net := Request → Except String Response

/-- `_download_html` (lines 6-10): a bare GET whose body is returned
whatever the status code; only a transport exception propagates. -/
def download_html (net : Net) (url : String) : Except String String :=
  match net ⟨url, []⟩ with
  | .error msg => .error msg
  | .ok r => .ok r.body

/-- `response.raise_for_status()`: an HTTP error is any status in
[400, 600). -/
def isHttpError (status : Nat) : Prop := 400 ≤ status ∧ status < 600

instance (status : Nat) : Decidable (isHttpError status) := by
  unfold isHttpError; infer_instance

/-- Message of the `HTTPError` that `raise_for_status` raises. -/
def httpErrorMsg (status : Nat) (url : String) : String :=
  toString status ++ " Error for url: " ++ url

/-- `extract_text_from_wikipedia(html_content, url)` (lines 30-68).
`parse` is the HTML-parsing oracle standing for
`BeautifulSoup(-, 'html.parser')`.  When `url` is truthy (present and
non-empty) it is fetched, a transport failure or HTTP-error status is
wrapped into `Error fetching URL: ...`, and the response body replaces
`html_content`; the resulting HTML is parsed and handed to the
extraction pipeline, and parsing a still-absent `html_content`
raises. -/
def extract_text_from_wikipedia (net : Net) (parse : String → Dom)
    (html_content : Option String) (url : Option String) :
    Except CrawlError (String × String) :=
  let fetched : Except CrawlError (Option String) :=
    match url with
    | some u =>
      if u = "" then .ok html_content
      else
        match net ⟨u, []⟩ with
        | .error msg => .error (.fetchError ("Error fetching URL: " ++ msg))
        | .ok r =>
          if isHttpError r.status then
            .error (.fetchError ("Error fetching URL: " ++ httpErrorMsg r.status u))
          else .ok (some r.body)
    | none => .ok html_content
  match fetched with
  | .error e => .error e
  | .ok none => .error .noHtmlError
  | .ok (some h) => extractFromDoc (parse h)

/-- Language-to-base-URL resolution of line 82: exactly the string
`"tr"` selects the Turkish Wikipedia, anything else the English one. -/
def base_url (lang : String) : String :=
  if lang = "tr" then "https://tr.wikipedia.org" else "https://en.wikipedia.org"

/-- Category-URL resolution of line 84: the base URL plus the localized
category namespace token. -/
def category_url (lang : String) : String :=
  if lang = "tr" then base_url lang ++ "/wiki/Kategori:"
  else base_url lang ++ "/wiki/Category:"

/-- The text-mode article loop (lines 91-95): fetch-and-extract each
article in listing order, writing `<output>/<title>.txt` with the body;
the first failure aborts the loop, keeping the writes made so far and
propagating the error. -/
def textLoop (net : Net) (parse : String → Dom) (base output : String) :
    List String → List (String × String) × Option CrawlError
  | [] => ([], none)
  | wiki :: rest =>
    match extract_text_from_wikipedia net parse none (some (base ++ wiki)) with
    | .error e => ([], some e)
    | .ok a =>
      let out := textLoop net parse base output rest
      ((output ++ "/" ++ a.1 ++ ".txt", a.2) :: out.1, out.2)

/-- Splitting a character list at every `/`, keeping empty pieces, as
Python's `split("/")` does. -/
def splitSlashAux : List Char → List Char → List String
  | [], acc => [⟨acc.reverse⟩]
  | c :: cs, acc =>
    if c = '/' then (⟨acc.reverse⟩ : String) :: splitSlashAux cs []
    else splitSlashAux cs (c :: acc)

/-- Split a string on `/`. -/
def splitSlash (s : String) : List String := splitSlashAux s.data []

/-- Final path segment, `wiki.split("/")[-1]` (line 100). -/
def lastSegment (s : String) : String := (splitSlash s).getLastD ""

/-- The PDF-mode article loop (lines 99-104): for each article, take the
final path segment of the (already percent-decoded) reference, GET the
REST PDF endpoint with an `accept: application/pdf` header, and write the
raw response body to `<output>/PDF/<segment>.pdf` with no status check;
only a transport exception aborts the loop. -/
def pdfLoop (net : Net) (base output : String) :
    List String → List (String × String) × Option CrawlError
  | [] => ([], none)
  | wiki :: rest =>
    let title := lastSegment wiki
    match net ⟨base ++ "/api/rest_v1/page/pdf/" ++ title,
               [("accept", "application/pdf")]⟩ with
    | .error msg => ([], some (.transportError msg))
    | .ok r =>
      let out := pdfLoop net base output rest
      ((output ++ "/PDF/" ++ title ++ ".pdf", r.body) :: out.1, out.2)

/-- `crawl_wiki_category` (lines 71-104): resolve the URLs from the
language, fetch and parse the category listing, extract the ordered
unique article references, then run the text-mode or PDF-mode loop.
The result is the list of file writes performed, in order, paired with
the error (if any) that aborted the run; directory creation
(`os.makedirs`) writes no file and is not recorded. -/
def crawl_wiki_category (net : Net) (parse : String → Dom)
    (category output_path lang : String) (pdf : Bool) :
    List (String × String) × Option CrawlError :=
  let base := base_url lang
  match download_html net (category_url lang ++ category) with
  | .error msg => ([], some (.transportError msg))
  | .ok html =>
    match get_pages (parse html) with
    | .error e => ([], some e)
    | .ok wikies =>
      if pdf then pdfLoop net base output_path wikies
      else textLoop net parse base output_path wikies

/-- Default of the `lang` parameter in `crawl_wiki_category`'s
signature (line 71). -/
def crawl_lang_default : String := "tr"

/-- Calling the library function without a language argument (line 71
applies its own default). -/
def crawl_wiki_category_nolang (net : Net) (parse : String → Dom)
    (category output_path : String) (pdf : Bool) :
    List (String × String) × Option CrawlError :=
  crawl_wiki_category net parse category output_path crawl_lang_default pdf

/-- Default of the language CLI option (line 132). -/
def cli_language_default : String := "en"

/-- Arguments of the command-line entry point after parsing. -/
structure CliArgs where
  category : String
  output : String
  language : String
  pdf : Bool

/-- Argparse's defaulting: an absent `--language` becomes the CLI
default `"en"`, an absent `--pdf` is `false` (modelled by the caller
passing the flag's presence). -/
def cliParse (category output : String) (language : Option String) (pdf : Bool) :
    CliArgs :=
  ⟨category, output, language.getD cli_language_default, pdf⟩

/-- `main` (lines 143-156) after argument parsing, composed with
`exit(main())` (line 159): run the orchestrator; on success print
nothing and exit 0, on any exception print one `Error: <message>` line
to standard output and exit 1.  The result is the list of printed lines
paired with the process exit code. -/
def main (net : Net) (parse : String → Dom) (args : CliArgs) : List String × Nat :=
  match (crawl_wiki_category net parse args.category args.output args.language args.pdf).2 with
  | some e => (["Error: " ++ errMsg e], 1)
  | none => ([], 0)

/-! ### Specification-side descriptions -/

/-- First-seen de-duplication relative to an already-seen list: keep
each value's first occurrence not already seen, in order.  This is the
spec's "de-duplicate by raw link value, preserving first-seen order",
written as a plain recursion to compare with the source's
`pages_used` loop. -/
def dedupFirstFrom : List String → List String → List String
  | _, [] => []
  | used, x :: xs =>
    if x ∈ used then dedupFirstFrom used xs
    else x :: dedupFirstFrom (used ++ [x]) xs

/-- First-seen de-duplication of a list. -/
def dedupFirst (l : List String) : List String := dedupFirstFrom [] l

/-- Index of the first occurrence of `x` in a list (length of the list
when absent): the spec's "first appearance" order. -/
def firstIdx : List String → String → Nat
  | [], _ => 0
  | y :: ys, x => if y = x then 0 else firstIdx ys x + 1

/-- The raw link a list item contributes:
`page.find("a")['href']` (line 21). -/
def liHref (li : Elem) : Option String :=
  (findFirst isA li.child).bind (fun a => getAttr a.attrs "href")

theorem mem_dedupFirstFrom (l : List String) :
    ∀ (used : List String) (x : String),
      x ∈ dedupFirstFrom used l ↔ x ∈ l ∧ x ∉ used := by
  induction l with
  | nil => intro used x; simp [dedupFirstFrom]
  | cons y ys ih =>
    intro used x
    by_cases hy : y ∈ used
    · rw [dedupFirstFrom, if_pos hy, ih]
      constructor
      · rintro ⟨hx, hnx⟩; exact ⟨List.mem_cons_of_mem _ hx, hnx⟩
      · rintro ⟨hx, hnx⟩
        rcases List.mem_cons.mp hx with rfl | hx
        · exact absurd hy hnx
        · exact ⟨hx, hnx⟩
    · rw [dedupFirstFrom, if_neg hy]
      constructor
      · intro hx
        rcases List.mem_cons.mp hx with rfl | hx
        · exact ⟨List.mem_cons_self _ _, hy⟩
        · rcases (ih (used ++ [y]) x).mp hx with ⟨hxs, hnx⟩
          exact ⟨List.mem_cons_of_mem _ hxs,
            fun hu => hnx (List.mem_append.mpr (Or.inl hu))⟩
      · rintro ⟨hx, hnx⟩
        rcases List.mem_cons.mp hx with rfl | hx
        · exact List.mem_cons_self _ _
        · by_cases hxy : x = y
          · exact hxy ▸ List.mem_cons_self _ _
          · refine List.mem_cons_of_mem _ ((ih (used ++ [y]) x).mpr ⟨hx, fun h => ?_⟩)
            rcases List.mem_append.mp h with h1 | h2
            · exact hnx h1
            · exact hxy (List.mem_singleton.mp h2)

theorem nodup_dedupFirstFrom (l : List String) :
    ∀ used : List String, (dedupFirstFrom used l).Nodup := by
  induction l with
  | nil => intro used; simp [dedupFirstFrom]
  | cons y ys ih =>
    intro used
    by_cases hy : y ∈ used
    · rw [dedupFirstFrom, if_pos hy]; exact ih used
    · rw [dedupFirstFrom, if_neg hy]
      refine List.nodup_cons.mpr ⟨fun hmem => ?_, ih (used ++ [y])⟩
      rcases (mem_dedupFirstFrom ys (used ++ [y]) y).mp hmem with ⟨-, hnot⟩
      exact hnot (List.mem_append.mpr (Or.inr (List.mem_singleton.mpr rfl)))

theorem firstIdx_cons_ne (y : String) (ys : List String) {x : String}
    (h : x ≠ y) : firstIdx (y :: ys) x = firstIdx ys x + 1 := by
  rw [firstIdx, if_neg (fun hyx => h hyx.symm)]

theorem pairwise_firstIdx_dedupFirstFrom (l : List String) :
    ∀ used : List String,
      (dedupFirstFrom used l).Pairwise (fun a b => firstIdx l a < firstIdx l b) := by
  induction l with
  | nil => intro used; simp [dedupFirstFrom]
  | cons y ys ih =>
    intro used
    by_cases hy : y ∈ used
    · rw [dedupFirstFrom, if_pos hy]
      refine (ih used).imp_of_mem (fun {a b} ha hb hab => ?_)
      have hay : a ≠ y := fun h =>
        ((mem_dedupFirstFrom ys used a).mp ha).2 (h ▸ hy)
      have hby : b ≠ y := fun h =>
        ((mem_dedupFirstFrom ys used b).mp hb).2 (h ▸ hy)
      rw [firstIdx_cons_ne y ys hay, firstIdx_cons_ne y ys hby]
      omega
    · rw [dedupFirstFrom, if_neg hy]
      refine List.pairwise_cons.mpr ⟨fun b hb => ?_, ?_⟩
      · have hby : b ≠ y := fun h => by
          rcases (mem_dedupFirstFrom ys (used ++ [y]) b).mp hb with ⟨-, hnot⟩
          exact hnot (List.mem_append.mpr (Or.inr (List.mem_singleton.mpr h)))
        rw [firstIdx, if_pos rfl, firstIdx_cons_ne y ys hby]
        omega
      · refine (ih (used ++ [y])).imp_of_mem (fun {a b} ha hb hab => ?_)
        have hay : a ≠ y := fun h => by
          rcases (mem_dedupFirstFrom ys (used ++ [y]) a).mp ha with ⟨-, hnot⟩
          exact hnot (List.mem_append.mpr (Or.inr (List.mem_singleton.mpr h)))
        have hby : b ≠ y := fun h => by
          rcases (mem_dedupFirstFrom ys (used ++ [y]) b).mp hb with ⟨-, hnot⟩
          exact hnot (List.mem_append.mpr (Or.inr (List.mem_singleton.mpr h)))
        rw [firstIdx_cons_ne y ys hay, firstIdx_cons_ne y ys hby]
        omega

theorem toFinset_dedupFirst (raws : List String) :
    (dedupFirst raws).toFinset = raws.toFinset := by
  ext x
  simp only [List.mem_toFinset, dedupFirst, mem_dedupFirstFrom]
  simp

theorem nodup_dedupFirst (raws : List String) : (dedupFirst raws).Nodup :=
  nodup_dedupFirstFrom raws []

theorem length_dedupFirst (raws : List String) :
    (dedupFirst raws).length = raws.toFinset.card := by
  rw [← toFinset_dedupFirst raws,
    List.toFinset_card_of_nodup (nodup_dedupFirst raws)]

theorem pagesLoop_eq (lis : List Elem) :
    ∀ (raws used pages : List String),
      lis.map liHref = raws.map some →
      pagesLoop lis used pages =
        .ok (pages ++ (dedupFirstFrom used raws).map unquote) := by
  induction lis with
  | nil =>
    intro raws used pages h
    cases raws with
    | nil => simp [pagesLoop, dedupFirstFrom]
    | cons r rs => simp at h
  | cons li rest ih =>
    intro raws used pages h
    cases raws with
    | nil => simp at h
    | cons r rs =>
      simp only [List.map_cons, List.cons.injEq] at h
      obtain ⟨hr, hrs⟩ := h
      obtain ⟨a, ha, hhref⟩ := Option.bind_eq_some.mp hr
      simp only [pagesLoop, ha, hhref]
      by_cases hmem : r ∈ used
      · rw [if_pos hmem, ih rs used pages hrs, dedupFirstFrom, if_pos hmem]
      · rw [if_neg hmem, ih rs (used ++ [r]) (pages ++ [unquote r]) hrs,
          dedupFirstFrom, if_neg hmem]
        simp

/-! ### Claim C1 -/

/-- C1: for every category listing page whose listing container is
present and whose list items all carry anchors with raw links `raws`,
`get_pages` returns exactly the raw links de-duplicated by raw
(still percent-encoded) value in first-seen order, each entry
percent-decoded: the result is `(dedupFirst raws).map unquote`, the
kept raw links are pairwise distinct, they are exactly the distinct raw
links of the listing, they are ordered by index of first appearance,
and their number is the number of distinct raw links. -/
theorem claim_C1_get_pages_dedup (doc : Dom) (container : Elem) (raws : List String)
    (hc : findFirst isMwPagesDiv doc = some container)
    (hr : (findAll isLi container.child).map liHref = raws.map some) :
    get_pages doc = .ok ((dedupFirst raws).map unquote) ∧
    (dedupFirst raws).Nodup ∧
    (∀ x, x ∈ dedupFirst raws ↔ x ∈ raws) ∧
    (dedupFirst raws).Pairwise (fun a b => firstIdx raws a < firstIdx raws b) ∧
    (dedupFirst raws).length = raws.toFinset.card := by
  refine ⟨?_, nodup_dedupFirst raws, ?_, pairwise_firstIdx_dedupFirstFrom raws [],
    length_dedupFirst raws⟩
  · simp only [get_pages, hc]
    rw [pagesLoop_eq _ raws [] [] hr]
    rfl
  · intro x
    rw [dedupFirst, mem_dedupFirstFrom]
    simp

/-- Category listing document used to witness C1: three list items, the
first raw link `/wiki/A` repeated once more after `/wiki/B%20C`. -/
def docC1 : Dom :=
  .elem "div" [("id", "mw-pages")]
    (.elem "ul" []
      (.elem "li" [] (.elem "a" [("href", "/wiki/A")] (.text "A" .nil) .nil)
        (.elem "li" [] (.elem "a" [("href", "/wiki/B%20C")] (.text "B C" .nil) .nil)
          (.elem "li" [] (.elem "a" [("href", "/wiki/A")] (.text "A again" .nil) .nil)
            .nil)))
      .nil)
    .nil

/-- The listing container of `docC1` as `findFirst` returns it. -/
def containerC1 : Elem :=
  ⟨"div", [("id", "mw-pages")],
    .elem "ul" []
      (.elem "li" [] (.elem "a" [("href", "/wiki/A")] (.text "A" .nil) .nil)
        (.elem "li" [] (.elem "a" [("href", "/wiki/B%20C")] (.text "B C" .nil) .nil)
          (.elem "li" [] (.elem "a" [("href", "/wiki/A")] (.text "A again" .nil) .nil)
            .nil)))
      .nil⟩

/-- Raw links of `docC1` in listing order. -/
def rawsC1 : List String := ["/wiki/A", "/wiki/B%20C", "/wiki/A"]

theorem claim_C1_witness :
    get_pages docC1 = .ok ["/wiki/A", "/wiki/B C"] :=
  ((claim_C1_get_pages_dedup docC1 containerC1 rawsC1 (by decide) (by decide)).1).trans
    (by decide)

/-! ### Claims C2 and C3 -/

theorem findAll_strip_self (p : ElemPred) (d : Dom) :
    findAll p (strip p d) = [] := by
  induction d with
  | nil => rfl
  | text s sib ih => simp [strip, findAll, ih]
  | elem t a c sib ihc ihs =>
    by_cases h : p t a
    · simp [strip, h, ihs]
    · simp [strip, findAll, h, ihc, ihs]

theorem findAll_strip_of_nil (q p : ElemPred) (d : Dom) :
    findAll q d = [] → findAll q (strip p d) = [] := by
  induction d with
  | nil => intro h; rfl
  | text s sib ih => intro h; simp only [findAll, strip] at *; exact ih h
  | elem t a c sib ihc ihs =>
    intro h
    rw [findAll] at h
    rcases List.append_eq_nil.mp h with ⟨h1, hs⟩
    rcases List.append_eq_nil.mp h1 with ⟨hq0, hc⟩
    have hq : ¬ q t a := by
      intro hq
      rw [if_pos hq] at hq0
      exact List.cons_ne_nil _ _ hq0
    by_cases hp : p t a
    · rw [strip, if_pos hp]; exact ihs hs
    · rw [strip, if_neg hp]
      rw [findAll, if_neg hq, ihc hc, ihs hs]
      rfl

/-- Article document witnessing C2: its only paragraph sits inside a
`navbox`-classed element. -/
def docC2 : Dom :=
  .elem "html" []
    (.elem "head" [] (.elem "title" [] (.text "T" .nil) .nil)
      (.elem "body" []
        (.elem "div" [("class", "navbox inner")]
          (.elem "p" [] (.text "Only paragraph" .nil) .nil)
          .nil)
        .nil))
    .nil

/-- C2: the extractor destructively removes every `nav`, `script`,
`style` and `footer` element and every element whose class matches the
strip-list entry `navbox`: no such element survives in the stripped
document, a matching element disappears together with its whole
subtree (its children contribute nothing), and the concrete article
whose only paragraph lies inside a `navbox`-classed element extracts to
an empty body string. -/
theorem claim_C2_strip_destructive :
    (∀ d : Dom, findAll isNavLike (stripAll d) = [] ∧
      findAll (clsMatch "navbox") (stripAll d) = []) ∧
    (∀ (bad : ElemPred) (t : String) (a : List (String × String)) (c sib : Dom),
      bad t a = true → strip bad (.elem t a c sib) = strip bad sib) ∧
    extractFromDoc docC2 = .ok ("T", "") := by
  refine ⟨fun d => ⟨?_, ?_⟩, fun bad t a c sib h => ?_, by decide⟩
  · show findAll isNavLike (strip (clsMatch "navbox") (strip isNavLike d)) = []
    exact findAll_strip_of_nil _ _ _ (findAll_strip_self isNavLike d)
  · show findAll (clsMatch "navbox") (strip (clsMatch "navbox") (strip isNavLike d)) = []
    exact findAll_strip_self _ _
  · rw [strip, if_pos h]

theorem claim_C2_witness :
    strip isNavLike (Dom.elem "nav" [] (.text "menu" .nil) .nil) = .nil :=
  (claim_C2_strip_destructive.2.1 isNavLike "nav" [] (.text "menu" .nil) .nil
    (by decide)).trans (by decide)

/-- The spec's description of the body: the text of each remaining
paragraph followed by a double newline, concatenated in document
order. -/
def bodyOfParagraphs : List Elem → String
  | [] => ""
  | p :: ps => getText p.child ++ "\n\n" ++ bodyOfParagraphs ps

theorem paragraphFold_eq_body (ps : List Elem) :
    ∀ s : String,
      ps.foldl (fun acc p => acc ++ getText p.child ++ "\n\n") s =
        s ++ bodyOfParagraphs ps := by
  induction ps with
  | nil => intro s; simp [bodyOfParagraphs]
  | cons p ps ih =>
    intro s
    rw [List.foldl_cons, ih, bodyOfParagraphs]
    simp [String.append_assoc]

/-- Article document witnessing C3: a title and two plain paragraphs. -/
def docC3 : Dom :=
  .elem "html" []
    (.elem "head" [] (.elem "title" [] (.text "T" .nil) .nil)
      (.elem "body" []
        (.elem "p" [] (.text "A" .nil)
          (.elem "p" [] (.text "B" .nil) .nil))
        .nil))
    .nil

/-- C3: whenever the stripped article has a title element, the
extracted body is the concatenation, in document order, of each
remaining paragraph's text followed by a double newline, with the final
result stripped of leading and trailing whitespace; the concrete
two-paragraph article "A", "B" yields body `"A\n\nB"`, and an article
with no remaining paragraph elements yields the empty body without
failing. -/
theorem claim_C3_body_shape :
    (∀ (doc : Dom) (t : Elem), findFirst isTitle (stripAll doc) = some t →
      extractFromDoc doc =
        .ok (getText t.child,
          pyStrip (bodyOfParagraphs (findAll isP (stripAll doc))))) ∧
    extractFromDoc docC3 = .ok ("T", "A\n\nB") ∧
    (∀ (doc : Dom) (t : Elem), findFirst isTitle (stripAll doc) = some t →
      findAll isP (stripAll doc) = [] →
      extractFromDoc doc = .ok (getText t.child, "")) := by
  have hmain : ∀ (doc : Dom) (t : Elem), findFirst isTitle (stripAll doc) = some t →
      extractFromDoc doc =
        .ok (getText t.child,
          pyStrip (bodyOfParagraphs (findAll isP (stripAll doc)))) := by
    intro doc t ht
    simp only [extractFromDoc, ht, paragraphFold]
    rw [paragraphFold_eq_body]
    simp
  refine ⟨hmain, by decide, fun doc t ht hp => ?_⟩
  rw [hmain doc t ht, hp]
  rfl

theorem claim_C3_witness :
    extractFromDoc docC3 =
      .ok (getText (Elem.mk "title" [] (.text "T" .nil)).child,
        pyStrip (bodyOfParagraphs (findAll isP (stripAll docC3)))) :=
  claim_C3_body_shape.1 docC3 ⟨"title", [], .text "T" .nil⟩ (by decide)

/-! ### Claims C4 to C7 -/

theorem textLoop_abort (net : Net) (parse : String → Dom) (base output : String)
    (w : String) (rest : List String) (e : CrawlError)
    (hfail : extract_text_from_wikipedia net parse none (some (base ++ w)) = .error e) :
    ∀ (pre : List String) (arts : List (String × String)),
      pre.map (fun x => extract_text_from_wikipedia net parse none (some (base ++ x))) =
        arts.map Except.ok →
      textLoop net parse base output (pre ++ w :: rest) =
        (arts.map (fun a => (output ++ "/" ++ a.1 ++ ".txt", a.2)), some e) := by
  intro pre
  induction pre with
  | nil =>
    intro arts h
    cases arts with
    | nil => simp only [List.nil_append, textLoop, hfail, List.map_nil]
    | cons a as => simp at h
  | cons x xs ih =>
    intro arts h
    cases arts with
    | nil => simp at h
    | cons a as =>
      simp only [List.map_cons, List.cons.injEq] at h
      obtain ⟨hx, hxs⟩ := h
      rw [List.cons_append, textLoop, hx, ih as hxs]
      rfl

theorem textLoop_ok (net : Net) (parse : String → Dom) (base output : String) :
    ∀ (wikies : List String) (arts : List (String × String)),
      wikies.map (fun x => extract_text_from_wikipedia net parse none (some (base ++ x))) =
        arts.map Except.ok →
      textLoop net parse base output wikies =
        (arts.map (fun a => (output ++ "/" ++ a.1 ++ ".txt", a.2)), none) := by
  intro wikies
  induction wikies with
  | nil =>
    intro arts h
    cases arts with
    | nil => rfl
    | cons a as => simp at h
  | cons x xs ih =>
    intro arts h
    cases arts with
    | nil => simp at h
    | cons a as =>
      simp only [List.map_cons, List.cons.injEq] at h
      obtain ⟨hx, hxs⟩ := h
      rw [textLoop, hx, ih as hxs]
      rfl

theorem pdfLoop_abort (net : Net) (base output : String)
    (w : String) (rest : List String) (msg : String)
    (hfail : net ⟨base ++ "/api/rest_v1/page/pdf/" ++ lastSegment w,
        [("accept", "application/pdf")]⟩ = .error msg) :
    ∀ (pre : List String) (pdfResp : String → Response),
      (∀ x ∈ pre,
        net ⟨base ++ "/api/rest_v1/page/pdf/" ++ lastSegment x,
             [("accept", "application/pdf")]⟩ = .ok (pdfResp x)) →
      pdfLoop net base output (pre ++ w :: rest) =
        (pre.map (fun x =>
          (output ++ "/PDF/" ++ lastSegment x ++ ".pdf", (pdfResp x).body)),
         some (.transportError msg)) := by
  intro pre
  induction pre with
  | nil =>
    intro pdfResp _
    simp only [List.nil_append, pdfLoop, hfail, List.map_nil]
  | cons x xs ih =>
    intro pdfResp h
    rw [List.cons_append, pdfLoop, h x (List.mem_cons_self _ _),
      ih pdfResp (fun y hy => h y (List.mem_cons_of_mem _ hy))]
    rfl

/-- C4: in every orchestrator run where some article's fetch or
extraction raises — in text mode, when every article before some point
extracts successfully (to the pairs `arts`) and the next article's
fetch-or-extraction raises `e`; in PDF mode, when every PDF fetch
before some point succeeds and the next article's `rq.get` raises — the
run aborts at that article with the error propagating out uncaught:
exactly the files of the prior articles have been written, in order,
and no file is written for the failing article or any later one. -/
theorem claim_C4_abort_on_failure (net : Net) (parse : String → Dom)
    (category output lang : String) (catResp : Response)
    (pre : List String) (w : String) (rest : List String)
    (hnet : net ⟨category_url lang ++ category, []⟩ = .ok catResp)
    (hpages : get_pages (parse catResp.body) = .ok (pre ++ w :: rest)) :
    (∀ (arts : List (String × String)) (e : CrawlError),
      pre.map (fun x =>
          extract_text_from_wikipedia net parse none (some (base_url lang ++ x))) =
        arts.map Except.ok →
      extract_text_from_wikipedia net parse none
          (some (base_url lang ++ w)) = .error e →
      crawl_wiki_category net parse category output lang false =
        (arts.map (fun a => (output ++ "/" ++ a.1 ++ ".txt", a.2)), some e)) ∧
    (∀ (pdfResp : String → Response) (msg : String),
      (∀ x ∈ pre,
        net ⟨base_url lang ++ "/api/rest_v1/page/pdf/" ++ lastSegment x,
             [("accept", "application/pdf")]⟩ = .ok (pdfResp x)) →
      net ⟨base_url lang ++ "/api/rest_v1/page/pdf/" ++ lastSegment w,
           [("accept", "application/pdf")]⟩ = .error msg →
      crawl_wiki_category net parse category output lang true =
        (pre.map (fun x =>
          (output ++ "/PDF/" ++ lastSegment x ++ ".pdf", (pdfResp x).body)),
         some (.transportError msg))) := by
  constructor
  · intro arts e hok hfail
    simp only [crawl_wiki_category, download_html, hnet, hpages, Bool.false_eq_true,
      if_false]
    exact textLoop_abort net parse (base_url lang) output w rest e hfail pre arts hok
  · intro pdfResp msg hok hfail
    simp only [crawl_wiki_category, download_html, hnet, hpages, if_true]
    exact pdfLoop_abort net (base_url lang) output w rest msg hfail pre pdfResp hok

/-- Network oracle for the C4 text-mode witness: the category page
fetch and the first article fetch succeed, the second article fetch
fails with a transport error. -/
def netC4 : Net := fun req =>
  if req.url = "https://en.wikipedia.org/wiki/Category:Cat" then .ok ⟨200, "CATHTML"⟩
  else if req.url = "https://en.wikipedia.org/wiki/A" then .ok ⟨200, "ARTHTML"⟩
  else .error "connection refused"

/-- Network oracle for the C4 PDF-mode witness: the category page fetch
and the first article's PDF fetch succeed, the second article's PDF
fetch fails with a transport error. -/
def netC4pdf : Net := fun req =>
  if req.url = "https://en.wikipedia.org/wiki/Category:Cat" then .ok ⟨200, "CATHTML"⟩
  else if req.url = "https://en.wikipedia.org/api/rest_v1/page/pdf/A" then
    .ok ⟨200, "PDFA"⟩
  else .error "connection refused"

/-- Responses of the PDF endpoint in the C4 PDF-mode witness. -/
def pdfRespC4 : String → Response := fun _ => ⟨200, "PDFA"⟩

/-- Parsing oracle for the C4 witness: the category page parses to a
two-article listing, the article page to a one-paragraph article. -/
def parseC4 : String → Dom := fun s =>
  if s = "CATHTML" then
    .elem "div" [("id", "mw-pages")]
      (.elem "li" [] (.elem "a" [("href", "/wiki/A")] .nil .nil)
        (.elem "li" [] (.elem "a" [("href", "/wiki/B")] .nil .nil) .nil))
      .nil
  else if s = "ARTHTML" then
    .elem "html" []
      (.elem "title" [] (.text "A" .nil)
        (.elem "p" [] (.text "body of A" .nil) .nil))
      .nil
  else .nil

theorem claim_C4_witness :
    crawl_wiki_category netC4 parseC4 "Cat" "out" "en" false =
      ([("out/A.txt", "body of A")],
        some (.fetchError "Error fetching URL: connection refused")) ∧
    crawl_wiki_category netC4pdf parseC4 "Cat" "out" "en" true =
      ([("out/PDF/A.pdf", "PDFA")], some (.transportError "connection refused")) :=
  ⟨(((claim_C4_abort_on_failure netC4 parseC4 "Cat" "out" "en" ⟨200, "CATHTML"⟩
      ["/wiki/A"] "/wiki/B" [] (by decide) (by decide)).1
      [("A", "body of A")] (.fetchError "Error fetching URL: connection refused")
      (by decide) (by decide)).trans (by decide)),
   (((claim_C4_abort_on_failure netC4pdf parseC4 "Cat" "out" "en" ⟨200, "CATHTML"⟩
      ["/wiki/A"] "/wiki/B" [] (by decide) (by decide)).2
      pdfRespC4 "connection refused"
      (by intro x hx; fin_cases hx; decide) (by decide)).trans (by decide))⟩

/-- C5: when the fetched category page lacks the `mw-pages` listing
container, `get_pages` fails with the structure error, and the
orchestrator run (in either mode) performs no file write at all and
propagates that error. -/
theorem claim_C5_structure_error (net : Net) (parse : String → Dom)
    (category output lang : String) (pdf : Bool) (catResp : Response)
    (hnet : net ⟨category_url lang ++ category, []⟩ = .ok catResp)
    (hmiss : findFirst isMwPagesDiv (parse catResp.body) = none) :
    get_pages (parse catResp.body) = .error .structureError ∧
    crawl_wiki_category net parse category output lang pdf =
      ([], some .structureError) := by
  have hgp : get_pages (parse catResp.body) = .error .structureError := by
    rw [get_pages, hmiss]
  refine ⟨hgp, ?_⟩
  simp only [crawl_wiki_category, download_html, hnet, hgp]

/-- Network oracle for the C5 witness: the category fetch succeeds. -/
def netC5 : Net := fun _ => .ok ⟨200, "NOPAGES"⟩

/-- Parsing oracle for the C5 witness: the fetched page has no
`mw-pages` container. -/
def parseC5 : String → Dom := fun _ =>
  .elem "div" [("id", "other")] (.text "not a category page" .nil) .nil

theorem claim_C5_witness :
    get_pages (parseC5 "NOPAGES") = .error .structureError ∧
    crawl_wiki_category netC5 parseC5 "Cat" "out" "en" false =
      ([], some .structureError) :=
  claim_C5_structure_error netC5 parseC5 "Cat" "out" "en" false ⟨200, "NOPAGES"⟩
    (by decide) (by decide)

theorem pdfLoop_writes (net : Net) (base output : String)
    (pdfResp : String → Response) :
    ∀ wikies : List String,
      (∀ w ∈ wikies,
        net ⟨base ++ "/api/rest_v1/page/pdf/" ++ lastSegment w,
             [("accept", "application/pdf")]⟩ = .ok (pdfResp w)) →
      pdfLoop net base output wikies =
        (wikies.map (fun w =>
          (output ++ "/PDF/" ++ lastSegment w ++ ".pdf", (pdfResp w).body)), none) := by
  intro wikies
  induction wikies with
  | nil => intro _; rfl
  | cons w ws ih =>
    intro h
    rw [pdfLoop, h w (List.mem_cons_self _ _),
      ih (fun x hx => h x (List.mem_cons_of_mem _ hx))]
    rfl

/-- C6: in PDF mode, for every article reference the orchestrator takes
the final path segment of the (already percent-decoded) reference as
the short name, sends a GET carrying the `accept: application/pdf`
header to the REST PDF endpoint, performs no status-code check, and
writes exactly the raw response body to
`<output>/PDF/<short name>.pdf` — the conclusion holds whatever status
each response carries, error pages included. -/
theorem claim_C6_pdf_raw_writes (net : Net) (parse : String → Dom)
    (category output lang : String) (catResp : Response)
    (wikies : List String) (pdfResp : String → Response)
    (hnet : net ⟨category_url lang ++ category, []⟩ = .ok catResp)
    (hpages : get_pages (parse catResp.body) = .ok wikies)
    (hpdf : ∀ w ∈ wikies,
      net ⟨base_url lang ++ "/api/rest_v1/page/pdf/" ++ lastSegment w,
           [("accept", "application/pdf")]⟩ = .ok (pdfResp w)) :
    crawl_wiki_category net parse category output lang true =
      (wikies.map (fun w =>
        (output ++ "/PDF/" ++ lastSegment w ++ ".pdf", (pdfResp w).body)), none) := by
  simp only [crawl_wiki_category, download_html, hnet, hpages, if_true]
  exact pdfLoop_writes net (base_url lang) output pdfResp wikies hpdf

/-- Network oracle for the C6 witness: the category fetch succeeds and
the PDF endpoint answers with an HTTP 404 error page, which must be
written to disk as-is. -/
def netC6 : Net := fun req =>
  if req.url = "https://en.wikipedia.org/wiki/Category:Cat" then .ok ⟨200, "CATHTML"⟩
  else if req.url = "https://en.wikipedia.org/api/rest_v1/page/pdf/A" then
    .ok ⟨404, "<html>Not Found</html>"⟩
  else .error "unreachable"

/-- Parsing oracle for the C6 witness: one article, `/wiki/A`. -/
def parseC6 : String → Dom := fun s =>
  if s = "CATHTML" then
    .elem "div" [("id", "mw-pages")]
      (.elem "li" [] (.elem "a" [("href", "/wiki/A")] .nil .nil) .nil)
      .nil
  else .nil

/-- Responses of the PDF endpoint in the C6 witness. -/
def pdfRespC6 : String → Response := fun _ => ⟨404, "<html>Not Found</html>"⟩

theorem claim_C6_witness :
    crawl_wiki_category netC6 parseC6 "Cat" "out" "en" true =
      ([("out/PDF/A.pdf", "<html>Not Found</html>")], none) :=
  (claim_C6_pdf_raw_writes netC6 parseC6 "Cat" "out" "en" ⟨200, "CATHTML"⟩
    ["/wiki/A"] pdfRespC6 (by decide) (by decide)
    (by intro w hw; fin_cases hw; decide)).trans (by decide)

/-- C7: for every invocation of the entry point on parsed arguments, if
the orchestrator completes without raising the process prints nothing
and exits with code 0, and if it raises any exception `e` the process
prints the single line `Error: <message>` to standard output and exits
with code 1. -/
theorem claim_C7_cli_exit (net : Net) (parse : String → Dom) (args : CliArgs) :
    ((crawl_wiki_category net parse args.category args.output
        args.language args.pdf).2 = none →
      main net parse args = ([], 0)) ∧
    (∀ e : CrawlError,
      (crawl_wiki_category net parse args.category args.output
          args.language args.pdf).2 = some e →
      main net parse args = (["Error: " ++ errMsg e], 1)) := by
  constructor
  · intro h
    rw [main, h]
  · intro e h
    rw [main, h]

/-- Network oracle for the C7 success witness: category and article
fetches both succeed. -/
def netC7 : Net := fun req =>
  if req.url = "https://en.wikipedia.org/wiki/Category:Cat" then .ok ⟨200, "CATHTML"⟩
  else .ok ⟨200, "ARTHTML"⟩

/-- Network oracle for the C7 failure witness: every fetch raises. -/
def netC7bad : Net := fun _ => .error "boom"

/-- Arguments of the C7 witness invocations. -/
def argsC7 : CliArgs := ⟨"Cat", "out", "en", false⟩

theorem claim_C7_witness :
    main netC7 parseC4 argsC7 = ([], 0) ∧
    main netC7bad parseC4 argsC7 = (["Error: boom"], 1) :=
  ⟨(claim_C7_cli_exit netC7 parseC4 argsC7).1 (by decide),
   (claim_C7_cli_exit netC7bad parseC4 argsC7).2 (.transportError "boom") (by decide)⟩

/-! ### Claims C8 to C10 -/

/-- C8: every language selector other than the exact string `"tr"` —
`"de"`, the empty string, anything — resolves to the English base URL
and the `Category:` namespace token; only the exact value `"tr"`
selects the Turkish base URL with `Kategori:`. -/
theorem claim_C8_lang_resolution :
    (∀ lang : String, lang ≠ "tr" →
      base_url lang = "https://en.wikipedia.org" ∧
      category_url lang = "https://en.wikipedia.org/wiki/Category:") ∧
    base_url "tr" = "https://tr.wikipedia.org" ∧
    category_url "tr" = "https://tr.wikipedia.org/wiki/Kategori:" := by
  refine ⟨fun lang h => ⟨?_, ?_⟩, by decide, by decide⟩
  · rw [base_url, if_neg h]
  · rw [category_url, if_neg h, base_url, if_neg h]
    decide

theorem claim_C8_witness :
    (base_url "de" = "https://en.wikipedia.org" ∧
      category_url "de" = "https://en.wikipedia.org/wiki/Category:") ∧
    (base_url "" = "https://en.wikipedia.org" ∧
      category_url "" = "https://en.wikipedia.org/wiki/Category:") :=
  ⟨claim_C8_lang_resolution.1 "de" (by decide),
   claim_C8_lang_resolution.1 "" (by decide)⟩

/-- C9: the library function's own default language (line 71) is
`"tr"`, so calling `crawl_wiki_category` without a language crawls the
Turkish Wikipedia, while the command-line entry point fills an absent
language option with its default `"en"` (line 132): the two public
entry points have different default languages. -/
theorem claim_C9_default_language_mismatch :
    (∀ (net : Net) (parse : String → Dom) (category output : String) (pdf : Bool),
      crawl_wiki_category_nolang net parse category output pdf =
        crawl_wiki_category net parse category output "tr" pdf) ∧
    crawl_lang_default = "tr" ∧
    cli_language_default = "en" ∧
    (∀ category output : String,
      (cliParse category output none false).language = "en") ∧
    crawl_lang_default ≠ cli_language_default :=
  ⟨fun _ _ _ _ _ => rfl, rfl, rfl, fun _ _ => rfl, by decide⟩

theorem claim_C9_witness :
    crawl_wiki_category_nolang netC7 parseC4 "Cat" "out" false =
      crawl_wiki_category netC7 parseC4 "Cat" "out" "tr" false :=
  claim_C9_default_language_mismatch.1 netC7 parseC4 "Cat" "out" false

/-- C10: when `extract_text_from_wikipedia` receives both an HTML
string and a (non-empty, hence truthy) URL, the URL takes precedence:
the result is the same as if no HTML string had been passed, and when
the fetch succeeds with a non-error status the fetched response body is
what gets parsed and extracted — the supplied `html_content` is ignored
entirely. -/
theorem claim_C10_url_precedence (net : Net) (parse : String → Dom)
    (h u : String) (hu : u ≠ "") :
    extract_text_from_wikipedia net parse (some h) (some u) =
      extract_text_from_wikipedia net parse none (some u) ∧
    (∀ r : Response, net ⟨u, []⟩ = .ok r → ¬ isHttpError r.status →
      extract_text_from_wikipedia net parse (some h) (some u) =
        extractFromDoc (parse r.body)) := by
  constructor
  · simp only [extract_text_from_wikipedia, if_neg hu]
  · intro r hr hst
    simp only [extract_text_from_wikipedia, if_neg hu, hr, if_neg hst]

/-- Network oracle for the C10 witness: the URL fetch succeeds with a
body distinct from the supplied HTML. -/
def netC10 : Net := fun _ => .ok ⟨200, "FETCHED"⟩

/-- Parsing oracle for the C10 witness: only the fetched body parses to
an article with a title and a paragraph. -/
def parseC10 : String → Dom := fun s =>
  if s = "FETCHED" then
    .elem "html" []
      (.elem "title" [] (.text "Fetched" .nil)
        (.elem "p" [] (.text "from url" .nil) .nil))
      .nil
  else .elem "title" [] (.text "IGNORED" .nil) .nil

theorem claim_C10_witness :
    extract_text_from_wikipedia netC10 parseC10 (some "SUPPLIED") (some "U") =
      extract_text_from_wikipedia netC10 parseC10 none (some "U") ∧
    extract_text_from_wikipedia netC10 parseC10 (some "SUPPLIED") (some "U") =
      extractFromDoc (parseC10 "FETCHED") :=
  ⟨(claim_C10_url_precedence netC10 parseC10 "SUPPLIED" "U" (by decide)).1,
   (claim_C10_url_precedence netC10 parseC10 "SUPPLIED" "U" (by decide)).2
     ⟨200, "FETCHED"⟩ (by decide) (by decide)⟩

end WikiCrawler
